import Mathlib

/-!
Verification of the video-assembly service (`src/server.js`).

The server is a single Express handler `POST /create-video` plus small
helpers (`run`, `downloadToFile`).  We give a shallow embedding: the
handler becomes a pure Lean function from the request body, the
environment configuration and an *oracle* describing the outcomes of all
external effects (network fetches, subprocess invocations, the storage
upload) to a pair of (the ordered trace of external effects performed,
the HTTP response produced).  JavaScript `await` sequencing becomes
ordinary sequential evaluation, so the order of events in the trace is
exactly the order in which the awaited calls are issued.
-/

/-- A JSON value as it can appear in a request field (the subset relevant
to the `duration` field: numbers, strings, booleans, null; an absent
field is modelled as `Option.none` outside this type). -/
inductive JSVal
| vnum (q : ℚ)
| vstr (s : String)
| vbool (b : Bool)
| vnull
deriving DecidableEq, Repr

/-- A JavaScript number: either NaN or a (rational) numeric value.
(The durations manipulated by the server are produced by `Number(...)`,
which yields NaN on non-numeric strings.) -/
inductive NumVal
| nan
| val (q : ℚ)
deriving DecidableEq, Repr

/-- JavaScript truthiness for the values of `JSVal` (0, "", false and
null are falsy). -/
def jsTruthy : JSVal → Bool
| .vnum q => decide (q ≠ 0)
| .vstr s => decide (s ≠ "")
| .vbool b => b
| .vnull => false

/-- Digits of a decimal string folded into a natural number. -/
def natOfDigits (cs : List Char) : Nat :=
  cs.foldl (fun a c => a * 10 + (c.toNat - 48)) 0

/-- An unsigned decimal literal, with an optional fractional part
(`"5"`, `"5."`, `".5"`, `"2.75"`). -/
def parseUnsigned (cs : List Char) : Option ℚ :=
  if cs = [] then none else
  match cs.splitOn '.' with
  | [ip] =>
      if ip.all Char.isDigit ∧ ip ≠ [] then some (natOfDigits ip) else none
  | [ip, fp] =>
      if ip.all Char.isDigit ∧ fp.all Char.isDigit ∧ (ip ≠ [] ∨ fp ≠ []) then
        some ((natOfDigits ip : ℚ) + (natOfDigits fp : ℚ) / (10 ^ fp.length))
      else none
  | _ => none

/-- JavaScript `Number(string)` restricted to plain decimal literals with
an optional sign; every other string converts to NaN (`none`).  `""`
converts to 0 as in JavaScript. -/
def parseJSNumber (s : String) : Option ℚ :=
  match s.data with
  | [] => some 0
  | '-' :: rest => (parseUnsigned rest).map (fun q => -q)
  | '+' :: rest => parseUnsigned rest
  | cs => parseUnsigned cs

/-- JavaScript `Number(v)` on the modelled values. -/
def toNumber : JSVal → NumVal
| .vnum q => .val q
| .vstr s =>
    match parseJSNumber s with
    | some q => .val q
    | none => .nan
| .vbool b => .val (if b then 1 else 0)
| .vnull => .val 0

/-- `Number(images[i].duration || 3)` (server.js line 78): an absent or
falsy duration is replaced by the literal 3 before the `Number`
coercion; a truthy duration is coerced as-is. -/
def durOf (d : Option JSVal) : NumVal :=
  match d with
  | some v => if jsTruthy v then toNumber v else toNumber (.vnum 3)
  | none => toNumber (.vnum 3)

/-- One entry of the request's `images` array: `{ url, duration }`
(`duration` may be absent). -/
structure ImageSpec where
  url : String
  duration : Option JSVal
deriving DecidableEq, Repr

/-- The `images` field of the request body as received: either not an
array at all, or an array of image specifications. -/
inductive ImagesField
| notArray
| arr (imgs : List ImageSpec)
deriving DecidableEq, Repr

/-- The JSON body of a `POST /create-video` request; `none` models an
absent field (so that the destructuring defaults of server.js lines
54-61 apply). -/
structure ReqBody where
  images : Option ImagesField
  audio : Option String
  outputPath : Option String
  width : Option Int
  height : Option Int
  fps : Option Int
deriving DecidableEq, Repr

/-- A downloaded local asset: `{ file, duration }` as pushed onto
`localImgs` (server.js line 81). -/
structure LocalAsset where
  file : String
  duration : NumVal
deriving DecidableEq, Repr

/-- One line of the ffconcat list file `list.txt`: the
`ffconcat version 1.0` header, a `file <path>` line, or a
`duration <d>` line. -/
inductive ConcatEntry
| header
| fileE (path : String)
| durationE (d : NumVal)
deriving DecidableEq, Repr

/-- The body of the concat list: the loop of server.js lines 92-95
emits, for each local asset in order, one `file` line immediately
followed by one `duration` line. -/
def concatBody : List LocalAsset → List ConcatEntry
| [] => []
| a :: rest => .fileE a.file :: .durationE a.duration :: concatBody rest

/-- The complete concat timeline description (server.js lines 91-97):
the header, the per-asset (file, duration) pairs, and one final `file`
line repeating the last asset's path
(`localImgs[localImgs.length - 1].file`), with no duration after it. -/
def concatEntries (localImgs : List LocalAsset) : List ConcatEntry :=
  .header :: (concatBody localImgs ++ [.fileE ((localImgs.getLastD ⟨"", .val 0⟩).file)])

/-- The path of a `file` entry (`none` for header/duration lines). -/
def entryPath : ConcatEntry → Option String
| .fileE p => some p
| _ => none

/-- `String(i).padStart(3, "0")`. -/
def padStart3 (s : String) : String :=
  if s.length ≥ 3 then s else String.mk (List.replicate (3 - s.length) '0') ++ s

/-- `path.join(workDir, `img_XXX.png`)` for image index `i`
(server.js line 79). -/
def imgPath (workDir : String) (i : Nat) : String :=
  workDir ++ "/img_" ++ padStart3 (toString i) ++ ".png"

/-- `"/tmp/work-" + Date.now()` (server.js line 71): the workspace
directory name depends only on the millisecond timestamp. -/
def mkWorkDir (now : Nat) : String :=
  "/tmp/work-" ++ toString now

/-- Characters `encodeURIComponent` leaves unescaped:
alphanumerics and `- _ . ! ~ * ' ( )`. -/
def isUnreservedURI (c : Char) : Bool :=
  c.isAlphanum || c ∈ ['-', '_', '.', '!', '~', '*', '\'', '(', ')']

/-- UTF-8 bytes of a character, as natural numbers. -/
def utf8Bytes (c : Char) : List Nat :=
  let n := c.toNat
  if n < 128 then [n]
  else if n < 2048 then [192 + n / 64, 128 + n % 64]
  else if n < 65536 then [224 + n / 4096, 128 + (n / 64) % 64, 128 + n % 64]
  else [240 + n / 262144, 128 + (n / 4096) % 64, 128 + (n / 64) % 64, 128 + n % 64]

/-- An uppercase hexadecimal digit. -/
def hexDigit (n : Nat) : Char :=
  if n < 10 then Char.ofNat (48 + n) else Char.ofNat (55 + n)

/-- `%XX` percent-escape of one byte, uppercase hex. -/
def pctByte (b : Nat) : String :=
  String.mk ['%', hexDigit (b / 16), hexDigit (b % 16)]

/-- Percent-escape of one character (its UTF-8 bytes, each escaped). -/
def pctChar (c : Char) : String :=
  String.join ((utf8Bytes c).map pctByte)

/-- `encodeURIComponent` on a character list. -/
def encodeURIList : List Char → String
| [] => ""
| c :: cs => (if isUnreservedURI c then String.singleton c else pctChar c) ++ encodeURIList cs

/-- JavaScript `encodeURIComponent`. -/
def encodeURIComponent (s : String) : String :=
  encodeURIList s.data

/-- The authenticated upload URL (server.js line 120). -/
def uploadUrl (base bucket key : String) : String :=
  base ++ "/storage/v1/object/" ++ encodeURIComponent bucket ++ "/" ++ encodeURIComponent key

/-- The derived public-read URL (server.js line 137). -/
def publicUrl (base bucket key : String) : String :=
  base ++ "/storage/v1/object/public/" ++ encodeURIComponent bucket ++ "/" ++ encodeURIComponent key

/-- The headers of the storage upload request (server.js lines 124-128);
note the unconditional `x-upsert: true`. -/
def uploadHeaders (serviceKey : String) : List (String × String) :=
  [("Authorization", "Bearer " ++ serviceKey),
   ("Content-Type", "video/mp4"),
   ("x-upsert", "true")]

/-- The `-vf` filter expression (server.js line 103). -/
def vfExpr (width height : Int) : String :=
  "scale=" ++ toString width ++ ":" ++ toString height ++
  ":force_original_aspect_ratio=decrease,pad=" ++ toString width ++ ":" ++
  toString height ++ ":(ow-iw)/2:(oh-ih)/2,format=yuv420p"

/-- The pass-1 encoder command (server.js line 104): concat stills into a
video. -/
def pass1Cmd (concatTxt videoFile : String) (width height : Int) : String :=
  "ffmpeg -y -f concat -safe 0 -i \"" ++ concatTxt ++ "\" -vf \"" ++
  vfExpr width height ++ "\" -pix_fmt yuv420p -c:v libx264 -vsync vfr \"" ++
  videoFile ++ "\""

/-- The pass-2 encoder command (server.js line 108): mux audio, copy
video, truncate to the shorter stream. -/
def pass2Cmd (videoFile audioFile finalFile : String) : String :=
  "ffmpeg -y -i \"" ++ videoFile ++ "\" -i \"" ++ audioFile ++
  "\" -c:v copy -c:a aac -shortest \"" ++ finalFile ++ "\""

/-- Workspace-relative intermediate file paths. -/
def audioPathOf (now : Nat) : String := mkWorkDir now ++ "/audio.mp3"

/-- Path of the concat list file. -/
def concatPathOf (now : Nat) : String := mkWorkDir now ++ "/list.txt"

/-- Path of the silent pass-1 video. -/
def videoPathOf (now : Nat) : String := mkWorkDir now ++ "/video.mp4"

/-- Path of the muxed final video. -/
def finalPathOf (now : Nat) : String := mkWorkDir now ++ "/final.mp4"

/-- The concrete pass-1 command issued for a request processed at time
`now` with the given dimensions. -/
def cmd1Of (now : Nat) (width height : Int) : String :=
  pass1Cmd (concatPathOf now) (videoPathOf now) width height

/-- The concrete pass-2 command issued for a request processed at time
`now`. -/
def cmd2Of (now : Nat) : String :=
  pass2Cmd (videoPathOf now) (audioPathOf now) (finalPathOf now)

/-- An externally observable effect of the handler, in issue order.  The
write of the concat list records the timeline description it contains. -/
inductive Event
| mkdirE (dir : String)
| fetchE (url : String)
| writeFileE (path : String)
| writeConcatE (path : String) (entries : List ConcatEntry)
| execE (cmd : String)
| uploadE (url : String) (headers : List (String × String))
deriving DecidableEq, Repr

/-- Is the event a subprocess invocation? -/
def Event.isExec : Event → Bool
| .execE _ => true
| _ => false

/-- Is the event an asset fetch (a `downloadToFile` network call)? -/
def Event.isFetch : Event → Bool
| .fetchE _ => true
| _ => false

/-- Is the event the storage upload? -/
def Event.isUpload : Event → Bool
| .uploadE _ _ => true
| _ => false

/-- The URLs of the fetch events of a trace, in order. -/
def fetchUrls (evs : List Event) : List String :=
  evs.filterMap fun e =>
    match e with
    | .fetchE u => some u
    | _ => none

/-- The failure of a subprocess: `exec`'s callback error, carrying the
error message and the captured stderr. -/
structure ExecErr where
  message : String
  stderr : String
deriving DecidableEq, Repr

/-- The oracle fixing the outcome of every external effect of one
request: the clock, whether each fetch responds ok (and with which
status otherwise), each subprocess's result, the upload outcome, and the
bytes of the final artifact read back from disk. -/
structure Oracle where
  now : Nat
  fetchOk : String → Bool
  fetchStatus : String → Nat
  execRes : String → Except ExecErr String
  uploadOk : Bool
  uploadStatus : Nat
  uploadBodyText : String
  finalBytes : List Nat

/-- The environment configuration read by the handler (each variable is
absent or a string). -/
structure Env where
  supabaseUrl : Option String
  bucket : Option String
  serviceKey : Option String

/-- JavaScript falsiness of `process.env.X`: absent or the empty
string. -/
def jsFalsyOptStr (o : Option String) : Bool :=
  o.getD "" == ""

/-- A thrown pipeline error as it reaches the catch block: `err.message`
and the optional `err.details` attached by `run`. -/
structure PipeErr where
  message : String
  details : Option String
deriving DecidableEq, Repr

/-- The message of a failed download (server.js line 41). -/
def dlFailMsg (url : String) (status : Nat) : String :=
  "Download failed: " ++ url ++ " -> " ++ toString status

/-- `downloadToFile(url, outPath)` (server.js lines 39-45): fetch, throw
on a non-ok response, otherwise write the body to `outPath`. -/
def downloadToFile (ok : Oracle) (url outPath : String) :
    List Event × Except PipeErr Unit :=
  if ok.fetchOk url then
    ([.fetchE url, .writeFileE outPath], .ok ())
  else
    ([.fetchE url], .error ⟨dlFailMsg url (ok.fetchStatus url), none⟩)

/-- `run(cmd)` (server.js lines 27-37): invoke the subprocess; on a
non-zero exit reject with the error, attaching the captured stderr as
`details`. -/
def run (ok : Oracle) (cmd : String) : List Event × Except PipeErr String :=
  match ok.execRes cmd with
  | .ok out => ([.execE cmd], .ok out)
  | .error e => ([.execE cmd], .error ⟨e.message, some e.stderr⟩)

/-- The image-download loop (server.js lines 75-82), from index `i`:
each image is fetched (sequentially, in request order) and recorded as a
`LocalAsset` with the defaulted duration; the first failure aborts the
loop. -/
def downloadImagesFrom (ok : Oracle) (workDir : String) :
    Nat → List ImageSpec → List Event × Except PipeErr (List LocalAsset)
| _, [] => ([], .ok [])
| i, img :: rest =>
  let out := imgPath workDir i
  match downloadToFile ok img.url out with
  | (evs, .error e) => (evs, .error e)
  | (evs, .ok _) =>
    match downloadImagesFrom ok workDir (i + 1) rest with
    | (evs2, .error e) => (evs ++ evs2, .error e)
    | (evs2, .ok assets) =>
        (evs ++ evs2, .ok (⟨out, durOf img.duration⟩ :: assets))

/-- The JSON body of a successful response (server.js lines 139-147). -/
structure SuccessBody where
  success : Bool
  url : String
  size : Nat
  frames : Nat
  fps : Int
  width : Int
  height : Int
deriving DecidableEq, Repr

/-- The HTTP responses the handler can produce: 401 from the auth check,
400 with an error message from validation, 500 with `error` and
`details` from the catch block, 200 with the success body. -/
inductive Response
| s401
| s400 (error : String)
| s500 (error : String) (details : String)
| s200 (body : SuccessBody)
deriving DecidableEq, Repr

/-- The message thrown when the storage configuration is missing
(server.js line 116). -/
def missingConfigMsg : String :=
  "Missing SUPABASE_URL or SUPABASE_SERVICE_ROLE_KEY"

/-- The message thrown when the storage API rejects the upload
(server.js line 134). -/
def uploadFailMsg (status : Nat) (txt : String) : String :=
  "Supabase upload failed: " ++ toString status ++ " " ++ txt

/-- `SUPABASE_BUCKET_VIDEOS || "videos"` (server.js line 112). -/
def bucketOf (env : Env) : String :=
  if jsFalsyOptStr env.bucket then "videos" else env.bucket.getD ""

/-- The pipeline body of the handler after validation (server.js lines
70-147): create the workspace, download the images then the audio, write
the concat list, run the two encoder passes, check the storage
configuration, upload, and build the success body.  Returns the effect
trace and either the success body or the thrown error. -/
def pipeline (env : Env) (ok : Oracle) (imgs : List ImageSpec)
    (audio outputPath : String) (width height fps : Int) :
    List Event × Except PipeErr SuccessBody :=
  let workDir := mkWorkDir ok.now
  let ev0 : List Event := [.mkdirE workDir]
  match downloadImagesFrom ok workDir 0 imgs with
  | (ev1, .error e) => (ev0 ++ ev1, .error e)
  | (ev1, .ok localImgs) =>
    match downloadToFile ok audio (audioPathOf ok.now) with
    | (ev2, .error e) => (ev0 ++ ev1 ++ ev2, .error e)
    | (ev2, .ok _) =>
      let ev3 : List Event := [.writeConcatE (concatPathOf ok.now) (concatEntries localImgs)]
      match run ok (cmd1Of ok.now width height) with
      | (ev4, .error e) => (ev0 ++ ev1 ++ ev2 ++ ev3 ++ ev4, .error e)
      | (ev4, .ok _) =>
        match run ok (cmd2Of ok.now) with
        | (ev5, .error e) => (ev0 ++ ev1 ++ ev2 ++ ev3 ++ ev4 ++ ev5, .error e)
        | (ev5, .ok _) =>
          let evs := ev0 ++ ev1 ++ ev2 ++ ev3 ++ ev4 ++ ev5
          if jsFalsyOptStr env.supabaseUrl || jsFalsyOptStr env.serviceKey then
            (evs, .error ⟨missingConfigMsg, none⟩)
          else
            let base := env.supabaseUrl.getD ""
            let bucket := bucketOf env
            let key := env.serviceKey.getD ""
            let uUrl := uploadUrl base bucket outputPath
            let evs6 := evs ++ [.uploadE uUrl (uploadHeaders key)]
            if ok.uploadOk then
              (evs6, .ok ⟨true, publicUrl base bucket outputPath,
                          ok.finalBytes.length, imgs.length, fps, width, height⟩)
            else
              (evs6, .error ⟨uploadFailMsg ok.uploadStatus ok.uploadBodyText, none⟩)

/-- The `images` field after the destructuring default (an absent field
becomes the empty array, server.js line 55). -/
def imagesDefaulted (body : ReqBody) : ImagesField :=
  body.images.getD (.arr [])

/-- The validation check of server.js line 63:
`!Array.isArray(images) || images.length === 0`. -/
def imagesInvalid (body : ReqBody) : Bool :=
  match imagesDefaulted body with
  | .notArray => true
  | .arr xs => xs.isEmpty

/-- The full `POST /create-video` handler (server.js lines 47-153):
auth check, destructuring defaults, validation, then the pipeline, with
every thrown error mapped by the catch block to a 500 carrying
`err.message` and `err.details || ""`. -/
def handler (authToken : String) (env : Env) (ok : Oracle)
    (hdrToken : Option String) (body : ReqBody) : List Event × Response :=
  if authToken ≠ "" ∧ hdrToken ≠ some authToken then
    ([], .s401)
  else
    match imagesDefaulted body with
    | .notArray => ([], .s400 "images[] required")
    | .arr imgs =>
      if imgs.isEmpty then ([], .s400 "images[] required")
      else if jsFalsyOptStr body.audio then ([], .s400 "audio url required")
      else
        let outputPath := body.outputPath.getD "stories/output.mp4"
        let width := body.width.getD 1920
        let height := body.height.getD 1080
        let fps := body.fps.getD 25
        match pipeline env ok imgs (body.audio.getD "") outputPath width height fps with
        | (evs, .ok b) => (evs, .s200 b)
        | (evs, .error e) => (evs, .s500 e.message (e.details.getD ""))

/-- The effect trace of a fully successful image-download loop starting
at index `i`: per image, its fetch immediately followed by the write of
its local file. -/
def dlTrace (workDir : String) : Nat → List ImageSpec → List Event
| _, [] => []
| i, img :: rest =>
    .fetchE img.url :: .writeFileE (imgPath workDir i) :: dlTrace workDir (i + 1) rest

/-- The local assets produced by a fully successful image-download loop
starting at index `i`. -/
def dlAssets (workDir : String) : Nat → List ImageSpec → List LocalAsset
| _, [] => []
| i, img :: rest =>
    ⟨imgPath workDir i, durOf img.duration⟩ :: dlAssets workDir (i + 1) rest

/-- An object store: a finite association of object keys to byte
blobs. -/
def Store := List (String × List Nat)

/-- Modelled from the spec: the object-storage write endpoint is
external to this repository; per the spec it performs an authenticated
write with "upsert semantics (overwrite-if-exists)" when the upsert flag
is set, and rejects a write to an existing key when it is not. -/
def putObject (upsert : Bool) (store : Store) (key : String) (val : List Nat) :
    Option Store :=
  if (List.lookup key store).isSome && !upsert then none
  else some ((key, val) :: store.filter (fun kv => kv.1 != key))

/-- Does the upload request built by the code (server.js lines 122-130)
carry the upsert flag? -/
def upsertFlagSent (serviceKey : String) : Bool :=
  (uploadHeaders serviceKey).lookup "x-upsert" == some "true"

/-- One publish operation against the modelled store: write the artifact
under the bucket-qualified key with exactly the upsert semantics the
code requests through its headers, then derive the public URL
(server.js line 137). -/
def publishOnce (serviceKey base bucket key : String) (bytes : List Nat)
    (store : Store) : Option (Store × String) :=
  match putObject (upsertFlagSent serviceKey) store (bucket ++ "/" ++ key) bytes with
  | none => none
  | some s => some (s, publicUrl base bucket key)

theorem getLastD_eq_getLast {α : Type} (d : α) (l : List α) (h : l ≠ []) :
    l.getLastD d = l.getLast h := by
  rw [List.getLastD_eq_getLast?, List.getLast?_eq_getLast _ h, Option.getD_some]

theorem concatBody_filterMap (imgs : List LocalAsset) :
    (concatBody imgs).filterMap entryPath = imgs.map (fun a => a.file) := by
  induction imgs with
  | nil => rfl
  | cons a rest ih => simp [concatBody, entryPath, ih]

theorem concatBody_length (imgs : List LocalAsset) :
    (concatBody imgs).length = 2 * imgs.length := by
  induction imgs with
  | nil => rfl
  | cons a rest ih => simp [concatBody, ih]; ring

theorem concatBody_getElem (imgs : List LocalAsset) (tail : List ConcatEntry) :
    ∀ i, (hi : i < imgs.length) →
      (concatBody imgs ++ tail)[2 * i]? = some (.fileE (imgs[i].file)) ∧
      (concatBody imgs ++ tail)[2 * i + 1]? = some (.durationE (imgs[i].duration)) := by
  induction imgs with
  | nil => intro i hi; simp at hi
  | cons a rest ih =>
    intro i hi
    cases i with
    | zero => simp [concatBody]
    | succ j =>
      have e1 : 2 * (j + 1) = 2 * j + 1 + 1 := by ring
      have e2 : 2 * (j + 1) + 1 = 2 * j + 1 + 1 + 1 := by ring
      rw [e2, e1]
      simp only [concatBody, List.cons_append, List.getElem?_cons_succ]
      have hj : j < rest.length := by simpa using Nat.lt_of_succ_lt_succ hi
      simpa using ih j hj

theorem concatBody_getElem_after (imgs : List LocalAsset) (tail : List ConcatEntry) :
    (concatBody imgs ++ tail)[2 * imgs.length]? = tail[0]? := by
  rw [List.getElem?_append_right (by rw [concatBody_length])]
  rw [concatBody_length, Nat.sub_self]

/-- C1: for every non-empty list of downloaded local assets, the concat
timeline description has exactly N+1 file entries; the first N are the
assets' paths in input order, each immediately followed (at the next
line) by its duration entry; the (N+1)-th file entry repeats the final
asset's path and is the last line of the description, so no duration
entry follows it. -/
theorem spec_c1_timeline_shape (imgs : List LocalAsset) (h : imgs ≠ []) :
    ((concatEntries imgs).filterMap entryPath).length = imgs.length + 1 ∧
    (concatEntries imgs).filterMap entryPath
      = imgs.map (fun a => a.file) ++ [(imgs.getLast h).file] ∧
    (∀ i, (hi : i < imgs.length) →
      (concatEntries imgs)[2 * i + 1]? = some (.fileE (imgs[i].file)) ∧
      (concatEntries imgs)[2 * i + 2]? = some (.durationE (imgs[i].duration))) ∧
    (concatEntries imgs)[2 * imgs.length + 1]? = some (.fileE ((imgs.getLast h).file)) ∧
    (concatEntries imgs).length = 2 * imgs.length + 2 := by
  have hlast : imgs.getLast?.getD (⟨"", .val 0⟩ : LocalAsset) = imgs.getLast h := by
    rw [List.getLast?_eq_getLast _ h, Option.getD_some]
  have hmap : (concatEntries imgs).filterMap entryPath
      = imgs.map (fun a => a.file) ++ [(imgs.getLast h).file] := by
    simp [concatEntries, entryPath, List.filterMap_append, concatBody_filterMap, hlast]
  refine ⟨?_, hmap, ?_, ?_, ?_⟩
  · rw [hmap]; simp
  · intro i hi
    have e2 : 2 * i + 2 = (2 * i + 1) + 1 := by ring
    rw [e2]
    simpa [concatEntries, List.getElem?_cons_succ] using concatBody_getElem imgs _ i hi
  · have := concatBody_getElem_after imgs [.fileE ((imgs.getLastD ⟨"", .val 0⟩).file)]
    simpa [concatEntries, List.getElem?_cons_succ, hlast] using this
  · simp [concatEntries, concatBody_length]

/-- Witness for C1 at a concrete two-asset list. -/
theorem spec_c1_timeline_shape_witness :
    (([⟨"a.png", .val 2⟩, ⟨"b.png", .val 3⟩] : List LocalAsset) ≠ []) ∧
    ((concatEntries [⟨"a.png", .val 2⟩, ⟨"b.png", .val 3⟩]).filterMap entryPath).length = 3 :=
  ⟨by simp, (spec_c1_timeline_shape [⟨"a.png", .val 2⟩, ⟨"b.png", .val 3⟩] (by simp)).1⟩

theorem encodeURIList_append (xs ys : List Char) :
    encodeURIList (xs ++ ys) = encodeURIList xs ++ encodeURIList ys := by
  induction xs with
  | nil => simp [encodeURIList]
  | cons c cs ih => simp [encodeURIList, ih, String.append_assoc]

theorem encodeURIComponent_slash_split (s t : String) :
    encodeURIComponent (s ++ "/" ++ t)
      = encodeURIComponent s ++ "%2F" ++ encodeURIComponent t := by
  unfold encodeURIComponent
  rw [String.data_append, String.data_append, encodeURIList_append, encodeURIList_append]
  have hs : encodeURIList "/".data = "%2F" := by decide
  rw [hs]

/-- C10: the output key is percent-encoded in both the authenticated
upload URL and the derived public URL: every slash inside the key
appears as `%2F`, the default key encodes to `stories%2Foutput.mp4`,
and the two URLs are character-for-character identical on the encoded
bucket-and-key tail, differing only by the `public/` path segment. -/
theorem spec_c10_percent_encoding (base bucket s t : String) :
    encodeURIComponent (s ++ "/" ++ t)
      = encodeURIComponent s ++ "%2F" ++ encodeURIComponent t ∧
    encodeURIComponent "stories/output.mp4" = "stories%2Foutput.mp4" ∧
    uploadUrl base bucket (s ++ "/" ++ t)
      = base ++ "/storage/v1/object/"
        ++ (encodeURIComponent bucket ++ "/"
            ++ (encodeURIComponent s ++ "%2F" ++ encodeURIComponent t)) ∧
    publicUrl base bucket (s ++ "/" ++ t)
      = base ++ "/storage/v1/object/public/"
        ++ (encodeURIComponent bucket ++ "/"
            ++ (encodeURIComponent s ++ "%2F" ++ encodeURIComponent t)) := by
  have hsplit := encodeURIComponent_slash_split s t
  refine ⟨hsplit, by decide, ?_, ?_⟩
  · simp only [uploadUrl, hsplit]
    simp [String.append_assoc]
  · simp only [publicUrl, hsplit]
    simp [String.append_assoc]

/-- C9: a falsy duration field — absent, null, the number 0, or the
empty string — is replaced by the default 3; a truthy non-numeric string
is coerced with `Number`, yielding NaN rather than being rejected, while
a truthy numeric duration is kept. -/
theorem spec_c9_duration_default (s : String) (hs : s ≠ "")
    (hp : parseJSNumber s = none) :
    durOf none = .val 3 ∧
    durOf (some .vnull) = .val 3 ∧
    durOf (some (.vnum 0)) = .val 3 ∧
    durOf (some (.vstr "")) = .val 3 ∧
    durOf (some (.vstr s)) = .nan ∧
    (∀ q : ℚ, q ≠ 0 → durOf (some (.vnum q)) = .val q) := by
  refine ⟨rfl, rfl, by simp [durOf, jsTruthy, toNumber], by simp [durOf, jsTruthy, toNumber],
    ?_, ?_⟩
  · simp [durOf, jsTruthy, hs, toNumber, hp]
  · intro q hq; simp [durOf, jsTruthy, hq, toNumber]

/-- Witness for C9 at the non-numeric string `"abc"`. -/
theorem spec_c9_duration_default_witness :
    durOf none = .val 3 ∧
    durOf (some .vnull) = .val 3 ∧
    durOf (some (.vnum 0)) = .val 3 ∧
    durOf (some (.vstr "")) = .val 3 ∧
    durOf (some (.vstr "abc")) = .nan ∧
    (∀ q : ℚ, q ≠ 0 → durOf (some (.vnum q)) = .val q) :=
  spec_c9_duration_default "abc" (by decide) (by decide)

/-- C6: the upload request built by the code always carries the
`x-upsert: true` header, and against the modelled store publishing twice
to the same key succeeds both times (the second write overwrites) and
derives the same public URL both times. -/
theorem spec_c6_upsert_idempotent (sk base bucket key : String)
    (bytes : List Nat) (store : Store) :
    (uploadHeaders sk).lookup "x-upsert" = some "true" ∧
    ∃ s1, publishOnce sk base bucket key bytes store
            = some (s1, publicUrl base bucket key) ∧
      ∃ s2, publishOnce sk base bucket key bytes s1
              = some (s2, publicUrl base bucket key) := by
  have go : ∀ st : List (String × List Nat),
      publishOnce sk base bucket key bytes st
        = some ((bucket ++ "/" ++ key, bytes)
                  :: st.filter (fun kv => kv.1 != bucket ++ "/" ++ key),
                publicUrl base bucket key) := by
    intro st
    simp [publishOnce, putObject, upsertFlagSent, uploadHeaders, List.lookup]
  exact ⟨rfl, _, go store, _, go _⟩

theorem downloadImagesFrom_ok (ok : Oracle) (wd : String) (imgs : List ImageSpec) (i : Nat)
    (h : ∀ img ∈ imgs, ok.fetchOk img.url = true) :
    downloadImagesFrom ok wd i imgs = (dlTrace wd i imgs, .ok (dlAssets wd i imgs)) := by
  induction imgs generalizing i with
  | nil => rfl
  | cons a rest ih =>
    have ha : ok.fetchOk a.url = true := h a (by simp)
    have hr : ∀ img ∈ rest, ok.fetchOk img.url = true := fun img hm => h img (by simp [hm])
    simp [downloadImagesFrom, downloadToFile, ha, ih (i + 1) hr, dlTrace, dlAssets]

theorem fetchUrls_dlTrace (wd : String) (imgs : List ImageSpec) (i : Nat) :
    fetchUrls (dlTrace wd i imgs) = imgs.map (fun img => img.url) := by
  induction imgs generalizing i with
  | nil => rfl
  | cons a rest ih => simpa [dlTrace, fetchUrls] using ih (i + 1)

theorem dlTrace_no_exec (wd : String) (imgs : List ImageSpec) (i : Nat) :
    (dlTrace wd i imgs).all (fun e => !e.isExec) = true := by
  induction imgs generalizing i with
  | nil => rfl
  | cons a rest ih => simpa [dlTrace, Event.isExec] using ih (i + 1)

theorem dlTrace_no_upload (wd : String) (imgs : List ImageSpec) (i : Nat) :
    (dlTrace wd i imgs).all (fun e => !e.isUpload) = true := by
  induction imgs generalizing i with
  | nil => rfl
  | cons a rest ih => simpa [dlTrace, Event.isUpload] using ih (i + 1)

theorem downloadImagesFrom_trace_clean (ok : Oracle) (wd : String)
    (imgs : List ImageSpec) (i : Nat) :
    ((downloadImagesFrom ok wd i imgs).1).all
      (fun e => !e.isExec && !e.isUpload) = true := by
  induction imgs generalizing i with
  | nil => rfl
  | cons a rest ih =>
    by_cases hf : ok.fetchOk a.url
    · have := ih (i + 1)
      rcases hrec : downloadImagesFrom ok wd (i + 1) rest with ⟨evs2, r2⟩
      rw [hrec] at this
      cases r2 <;>
        simpa [downloadImagesFrom, downloadToFile, hf, hrec, Event.isExec, Event.isUpload]
          using this
    · simp [downloadImagesFrom, downloadToFile, hf, Event.isExec, Event.isUpload]

theorem downloadImagesFrom_fail (ok : Oracle) (wd : String) (imgs : List ImageSpec) (i : Nat)
    (h : ∃ img ∈ imgs, ok.fetchOk img.url = false) :
    ∃ evs e, downloadImagesFrom ok wd i imgs = (evs, .error e) := by
  induction imgs generalizing i with
  | nil => simp at h
  | cons a rest ih =>
    by_cases hf : ok.fetchOk a.url
    · have hrest : ∃ img ∈ rest, ok.fetchOk img.url = false := by
        rcases h with ⟨img, hm, hferr⟩
        rcases List.mem_cons.mp hm with rfl | hm2
        · rw [hf] at hferr; cases hferr
        · exact ⟨img, hm2, hferr⟩
      rcases ih (i + 1) hrest with ⟨evs, e, heq⟩
      exact ⟨.fetchE a.url :: .writeFileE (imgPath wd i) :: evs, e,
        by simp [downloadImagesFrom, downloadToFile, hf, heq]⟩
    · exact ⟨[.fetchE a.url], ⟨dlFailMsg a.url (ok.fetchStatus a.url), none⟩,
        by simp [downloadImagesFrom, downloadToFile, hf]⟩

theorem dlTrace_forall_not_upload (wd : String) (imgs : List ImageSpec) (i : Nat) :
    ∀ e ∈ dlTrace wd i imgs, e.isUpload = false := by
  have := dlTrace_no_upload wd imgs i
  simpa [List.all_eq_true] using this

theorem dlTrace_forall_not_exec (wd : String) (imgs : List ImageSpec) (i : Nat) :
    ∀ e ∈ dlTrace wd i imgs, e.isExec = false := by
  have := dlTrace_no_exec wd imgs i
  simpa [List.all_eq_true] using this

/-- C2: when the `images` field is missing, not an array or empty, or
the `audio` field is missing, the handler (past the auth gate) responds
400 with an error message and its effect trace is empty: no network
fetch, no filesystem write or directory creation, no subprocess, no
upload — the checks precede workspace creation and all downloads. -/
theorem spec_c2_validation_no_effects (authToken : String) (env : Env) (ok : Oracle)
    (hdr : Option String) (body : ReqBody)
    (hauth : ¬(authToken ≠ "" ∧ hdr ≠ some authToken))
    (hbad : imagesInvalid body = true ∨ body.audio = none) :
    (handler authToken env ok hdr body).1 = [] ∧
    ∃ m, (handler authToken env ok hdr body).2 = .s400 m := by
  rcases himg : imagesDefaulted body with _ | imgs
  · simp [handler, hauth, himg]
  · by_cases he : imgs.isEmpty
    · simp [handler, hauth, himg, he]
    · have haud : body.audio = none := by
        rcases hbad with hb | hb
        · rw [imagesInvalid, himg] at hb
          exact absurd hb (by simpa using he)
        · exact hb
      simp [handler, hauth, himg, he, haud, jsFalsyOptStr]

/-- Witness for C2: a request with an empty `images` array. -/
theorem spec_c2_validation_no_effects_witness :
    (handler "" ⟨none, none, none⟩
        ⟨0, fun _ => true, fun _ => 200, fun _ => .ok "", true, 200, "", []⟩
        none ⟨some (.arr []), some "http://a/a.mp3", none, none, none, none⟩).1 = [] ∧
    ∃ m, (handler "" ⟨none, none, none⟩
        ⟨0, fun _ => true, fun _ => 200, fun _ => .ok "", true, 200, "", []⟩
        none ⟨some (.arr []), some "http://a/a.mp3", none, none, none, none⟩).2 = .s400 m :=
  spec_c2_validation_no_effects "" _ _ none _ (by simp) (Or.inl (by rfl))

/-- C5: for a request that completes the whole pipeline successfully,
the response is 200 with `success = true`, `frames` the number of
images, `fps`/`width`/`height` echoing the request values or their
defaults, `size` the byte length of the uploaded artifact, and `url`
the public-read URL, which differs from the authenticated upload URL
only by the inserted `public/` segment over the identical encoded
bucket-and-key tail. -/
theorem spec_c5_success_response (env : Env) (ok : Oracle) (hdr : Option String)
    (body : ReqBody) (imgs : List ImageSpec) (audio : String) (out1 out2 : String)
    (hbody : body.images = some (.arr imgs)) (hne : imgs ≠ [])
    (haudio : body.audio = some audio) (haudne : audio ≠ "")
    (hfetch : ∀ img ∈ imgs, ok.fetchOk img.url = true)
    (hfa : ok.fetchOk audio = true)
    (hex1 : ok.execRes (cmd1Of ok.now (body.width.getD 1920) (body.height.getD 1080))
              = .ok out1)
    (hex2 : ok.execRes (cmd2Of ok.now) = .ok out2)
    (hurl : jsFalsyOptStr env.supabaseUrl = false)
    (hkey : jsFalsyOptStr env.serviceKey = false)
    (hup : ok.uploadOk = true) :
    (handler "" env ok hdr body).2
      = .s200 ⟨true,
          publicUrl (env.supabaseUrl.getD "") (bucketOf env)
            (body.outputPath.getD "stories/output.mp4"),
          ok.finalBytes.length, imgs.length,
          body.fps.getD 25, body.width.getD 1920, body.height.getD 1080⟩ ∧
    ∃ tail,
      uploadUrl (env.supabaseUrl.getD "") (bucketOf env)
          (body.outputPath.getD "stories/output.mp4")
        = env.supabaseUrl.getD "" ++ "/storage/v1/object/" ++ tail ∧
      publicUrl (env.supabaseUrl.getD "") (bucketOf env)
          (body.outputPath.getD "stories/output.mp4")
        = env.supabaseUrl.getD "" ++ "/storage/v1/object/public/" ++ tail := by
  have he : imgs.isEmpty = false := by simp [List.isEmpty_eq_false, hne]
  have haudf : jsFalsyOptStr body.audio = false := by
    simp [jsFalsyOptStr, haudio, haudne]
  have haudf2 : jsFalsyOptStr (some audio) = false := by
    simp [jsFalsyOptStr, haudne]
  constructor
  · simp [handler, imagesDefaulted, hbody, he, haudf, haudf2, haudio, pipeline,
      downloadImagesFrom_ok ok (mkWorkDir ok.now) imgs 0 hfetch,
      downloadToFile, hfa, run, hex1, hex2, hurl, hkey, hup]
  · refine ⟨encodeURIComponent (bucketOf env) ++ "/"
        ++ encodeURIComponent (body.outputPath.getD "stories/output.mp4"), ?_, ?_⟩ <;>
      simp [uploadUrl, publicUrl, String.append_assoc]

/-- Witness for C5: one image, all external effects succeed. -/
theorem spec_c5_success_response_witness :
    (handler ""
        ⟨some "https://x.supabase.co", none, some "KEY"⟩
        ⟨42, fun _ => true, fun _ => 200, fun _ => .ok "", true, 200, "", [1, 2, 3]⟩
        none
        ⟨some (.arr [⟨"http://a/1.png", none⟩]), some "http://a/a.mp3",
         none, none, none, none⟩).2
      = .s200 ⟨true, publicUrl "https://x.supabase.co" "videos" "stories/output.mp4",
               3, 1, 25, 1920, 1080⟩ ∧
    ∃ tail,
      uploadUrl "https://x.supabase.co" "videos" "stories/output.mp4"
        = "https://x.supabase.co" ++ "/storage/v1/object/" ++ tail ∧
      publicUrl "https://x.supabase.co" "videos" "stories/output.mp4"
        = "https://x.supabase.co" ++ "/storage/v1/object/public/" ++ tail :=
  spec_c5_success_response _ _ none _ [⟨"http://a/1.png", none⟩] "http://a/a.mp3" "" ""
    rfl (by simp) rfl (by decide) (by simp) rfl rfl rfl (by decide) (by decide) rfl

/-- C3: for a valid request whose downloads succeed, if either encoder
pass exits non-zero then the response is 500 with `error` the failure
message and `details` the captured stderr, and no upload request is
issued (the pipeline aborts at the failing pass). -/
theorem spec_c3_encoder_failure (env : Env) (ok : Oracle) (hdr : Option String)
    (body : ReqBody) (imgs : List ImageSpec) (audio : String)
    (hbody : body.images = some (.arr imgs)) (hne : imgs ≠ [])
    (haudio : body.audio = some audio) (haudne : audio ≠ "")
    (hfetch : ∀ img ∈ imgs, ok.fetchOk img.url = true)
    (hfa : ok.fetchOk audio = true) :
    (∀ m st,
      ok.execRes (cmd1Of ok.now (body.width.getD 1920) (body.height.getD 1080))
          = .error ⟨m, st⟩ →
      (handler "" env ok hdr body).2 = .s500 m st ∧
      ((handler "" env ok hdr body).1.all fun e => !e.isUpload) = true) ∧
    (∀ out m st,
      ok.execRes (cmd1Of ok.now (body.width.getD 1920) (body.height.getD 1080))
          = .ok out →
      ok.execRes (cmd2Of ok.now) = .error ⟨m, st⟩ →
      (handler "" env ok hdr body).2 = .s500 m st ∧
      ((handler "" env ok hdr body).1.all fun e => !e.isUpload) = true) := by
  have he : imgs.isEmpty = false := by simp [List.isEmpty_eq_false, hne]
  have haudf2 : jsFalsyOptStr (some audio) = false := by
    simp [jsFalsyOptStr, haudne]
  constructor
  · intro m st hex1
    simp [handler, imagesDefaulted, hbody, he, haudf2, haudio, pipeline,
      downloadImagesFrom_ok ok (mkWorkDir ok.now) imgs 0 hfetch,
      downloadToFile, hfa, run, hex1,
      Event.isUpload, dlTrace_no_upload]
    exact fun e he => dlTrace_forall_not_upload _ imgs 0 e he
  · intro out m st hex1 hex2
    simp [handler, imagesDefaulted, hbody, he, haudf2, haudio, pipeline,
      downloadImagesFrom_ok ok (mkWorkDir ok.now) imgs 0 hfetch,
      downloadToFile, hfa, run, hex1, hex2,
      Event.isUpload, dlTrace_no_upload]
    exact fun e he => dlTrace_forall_not_upload _ imgs 0 e he

/-- Witness for C3: one image, pass 1 fails with captured stderr. -/
theorem spec_c3_encoder_failure_witness :
    (handler "" ⟨some "https://x.supabase.co", none, some "KEY"⟩
        ⟨42, fun _ => true, fun _ => 200,
         fun _ => .error ⟨"Command failed", "boom"⟩, true, 200, "", []⟩
        none
        ⟨some (.arr [⟨"http://a/1.png", none⟩]), some "http://a/a.mp3",
         none, none, none, none⟩).2 = .s500 "Command failed" "boom" ∧
    (((handler "" ⟨some "https://x.supabase.co", none, some "KEY"⟩
        ⟨42, fun _ => true, fun _ => 200,
         fun _ => .error ⟨"Command failed", "boom"⟩, true, 200, "", []⟩
        none
        ⟨some (.arr [⟨"http://a/1.png", none⟩]), some "http://a/a.mp3",
         none, none, none, none⟩).1).all fun e => !e.isUpload) = true :=
  (spec_c3_encoder_failure _ _ none _ [⟨"http://a/1.png", none⟩] "http://a/a.mp3"
    rfl (by simp) rfl (by decide) (by simp) rfl).1 "Command failed" "boom" rfl

/-- C8: when the storage endpoint URL or the service credential is
absent (or empty) in the environment, a valid request still runs both
encoder passes to completion, then fails before any upload: the
response is 500 with the missing-configuration message and carries no
public URL. -/
theorem spec_c8_missing_config (env : Env) (ok : Oracle) (hdr : Option String)
    (body : ReqBody) (imgs : List ImageSpec) (audio : String) (out1 out2 : String)
    (hbody : body.images = some (.arr imgs)) (hne : imgs ≠ [])
    (haudio : body.audio = some audio) (haudne : audio ≠ "")
    (hfetch : ∀ img ∈ imgs, ok.fetchOk img.url = true)
    (hfa : ok.fetchOk audio = true)
    (hex1 : ok.execRes (cmd1Of ok.now (body.width.getD 1920) (body.height.getD 1080))
              = .ok out1)
    (hex2 : ok.execRes (cmd2Of ok.now) = .ok out2)
    (henv : (jsFalsyOptStr env.supabaseUrl || jsFalsyOptStr env.serviceKey) = true) :
    (handler "" env ok hdr body).2 = .s500 missingConfigMsg "" ∧
    Event.execE (cmd1Of ok.now (body.width.getD 1920) (body.height.getD 1080))
        ∈ (handler "" env ok hdr body).1 ∧
    Event.execE (cmd2Of ok.now) ∈ (handler "" env ok hdr body).1 ∧
    ((handler "" env ok hdr body).1.all fun e => !e.isUpload) = true := by
  have he : imgs.isEmpty = false := by simp [List.isEmpty_eq_false, hne]
  have haudf2 : jsFalsyOptStr (some audio) = false := by
    simp [jsFalsyOptStr, haudne]
  refine ⟨?_, ?_, ?_, ?_⟩ <;>
    · simp [handler, imagesDefaulted, hbody, he, haudf2, haudio, pipeline,
        downloadImagesFrom_ok ok (mkWorkDir ok.now) imgs 0 hfetch,
        downloadToFile, hfa, run, hex1, hex2, henv,
        Event.isUpload, dlTrace_no_upload]
      try exact fun e he => dlTrace_forall_not_upload _ imgs 0 e he

/-- Witness for C8: one image, encoding succeeds, service key absent. -/
theorem spec_c8_missing_config_witness :
    (handler "" ⟨some "https://x.supabase.co", none, none⟩
        ⟨42, fun _ => true, fun _ => 200, fun _ => .ok "", true, 200, "", []⟩
        none
        ⟨some (.arr [⟨"http://a/1.png", none⟩]), some "http://a/a.mp3",
         none, none, none, none⟩).2 = .s500 missingConfigMsg "" ∧
    Event.execE (cmd1Of 42 1920 1080)
        ∈ (handler "" ⟨some "https://x.supabase.co", none, none⟩
        ⟨42, fun _ => true, fun _ => 200, fun _ => .ok "", true, 200, "", []⟩
        none
        ⟨some (.arr [⟨"http://a/1.png", none⟩]), some "http://a/a.mp3",
         none, none, none, none⟩).1 ∧
    Event.execE (cmd2Of 42)
        ∈ (handler "" ⟨some "https://x.supabase.co", none, none⟩
        ⟨42, fun _ => true, fun _ => 200, fun _ => .ok "", true, 200, "", []⟩
        none
        ⟨some (.arr [⟨"http://a/1.png", none⟩]), some "http://a/a.mp3",
         none, none, none, none⟩).1 ∧
    (((handler "" ⟨some "https://x.supabase.co", none, none⟩
        ⟨42, fun _ => true, fun _ => 200, fun _ => .ok "", true, 200, "", []⟩
        none
        ⟨some (.arr [⟨"http://a/1.png", none⟩]), some "http://a/a.mp3",
         none, none, none, none⟩).1).all fun e => !e.isUpload) = true :=
  spec_c8_missing_config _ _ none _ [⟨"http://a/1.png", none⟩] "http://a/a.mp3" "" ""
    rfl (by simp) rfl (by decide) (by simp) rfl rfl rfl (by decide)

theorem fetchUrls_dlTrace_raw (wd : String) (imgs : List ImageSpec) (i : Nat) :
    List.filterMap
        (fun e => match e with | Event.fetchE u => some u | _ => none)
        (dlTrace wd i imgs)
      = imgs.map (fun img => img.url) :=
  fetchUrls_dlTrace wd imgs i

/-- C7: for a valid request, the effect trace splits into a prefix and a
suffix such that the prefix contains no encoder invocation and performs
the asset fetches — one per image, in request order, then exactly one
for the audio track — while the suffix contains no asset fetch: every
fetch completes (sequentially) before the first encoder invocation.
If any fetch fails, the whole trace contains no encoder invocation and
the response is a 500 error: the pipeline aborts before any encoding. -/
theorem spec_c7_sequential_fetch_order (env : Env) (ok : Oracle) (hdr : Option String)
    (body : ReqBody) (imgs : List ImageSpec) (audio : String)
    (hbody : body.images = some (.arr imgs)) (hne : imgs ≠ [])
    (haudio : body.audio = some audio) (haudne : audio ≠ "") :
    ((∀ img ∈ imgs, ok.fetchOk img.url = true) → ok.fetchOk audio = true →
      ∃ pre post,
        (handler "" env ok hdr body).1 = pre ++ post ∧
        fetchUrls pre = imgs.map (fun img => img.url) ++ [audio] ∧
        fetchUrls (handler "" env ok hdr body).1
          = imgs.map (fun img => img.url) ++ [audio] ∧
        (∀ e ∈ pre, e.isExec = false) ∧
        (∀ e ∈ post, e.isFetch = false)) ∧
    (((∃ img ∈ imgs, ok.fetchOk img.url = false) ∨ ok.fetchOk audio = false) →
      (∀ e ∈ (handler "" env ok hdr body).1, e.isExec = false) ∧
      ∃ m d, (handler "" env ok hdr body).2 = .s500 m d) := by
  have he : imgs.isEmpty = false := by simp [List.isEmpty_eq_false, hne]
  have haudf2 : jsFalsyOptStr (some audio) = false := by
    simp [jsFalsyOptStr, haudne]
  constructor
  · intro hfetch hfa
    have hu : fetchUrls
        (.mkdirE (mkWorkDir ok.now)
          :: (dlTrace (mkWorkDir ok.now) 0 imgs
              ++ [.fetchE audio, .writeFileE (audioPathOf ok.now),
                  .writeConcatE (concatPathOf ok.now)
                    (concatEntries (dlAssets (mkWorkDir ok.now) 0 imgs))]))
        = imgs.map (fun img => img.url) ++ [audio] := by
      simp [fetchUrls, List.filterMap_append, fetchUrls_dlTrace_raw]
    have hx : ∀ e ∈
        (.mkdirE (mkWorkDir ok.now)
          :: (dlTrace (mkWorkDir ok.now) 0 imgs
              ++ [.fetchE audio, .writeFileE (audioPathOf ok.now),
                  .writeConcatE (concatPathOf ok.now)
                    (concatEntries (dlAssets (mkWorkDir ok.now) 0 imgs))]) :
          List Event), e.isExec = false := by
      intro e hee
      simp [List.mem_cons, List.mem_append] at hee
      rcases hee with rfl | hd | rfl | rfl | rfl
      · rfl
      · exact dlTrace_forall_not_exec _ _ _ _ hd
      · rfl
      · rfl
      · rfl
    rcases h1 : ok.execRes (cmd1Of ok.now (body.width.getD 1920) (body.height.getD 1080))
      with e1 | o1
    · have htr : (handler "" env ok hdr body).1
          = (.mkdirE (mkWorkDir ok.now)
              :: (dlTrace (mkWorkDir ok.now) 0 imgs
                  ++ [.fetchE audio, .writeFileE (audioPathOf ok.now),
                      .writeConcatE (concatPathOf ok.now)
                        (concatEntries (dlAssets (mkWorkDir ok.now) 0 imgs))]))
            ++ [.execE (cmd1Of ok.now (body.width.getD 1920) (body.height.getD 1080))] := by
        simp [handler, imagesDefaulted, hbody, he, haudf2, haudio, pipeline,
          downloadImagesFrom_ok ok (mkWorkDir ok.now) imgs 0 hfetch,
          downloadToFile, hfa, run, h1]
      refine ⟨_, _, htr, hu, ?_, hx, ?_⟩
      · rw [htr]
        simp [fetchUrls, List.filterMap_append, fetchUrls_dlTrace_raw]
      · intro e hee
        simp at hee
        subst hee; rfl
    · rcases h2 : ok.execRes (cmd2Of ok.now) with e2 | o2
      · have htr : (handler "" env ok hdr body).1
            = (.mkdirE (mkWorkDir ok.now)
                :: (dlTrace (mkWorkDir ok.now) 0 imgs
                    ++ [.fetchE audio, .writeFileE (audioPathOf ok.now),
                        .writeConcatE (concatPathOf ok.now)
                          (concatEntries (dlAssets (mkWorkDir ok.now) 0 imgs))]))
              ++ [.execE (cmd1Of ok.now (body.width.getD 1920) (body.height.getD 1080)),
                  .execE (cmd2Of ok.now)] := by
          simp [handler, imagesDefaulted, hbody, he, haudf2, haudio, pipeline,
            downloadImagesFrom_ok ok (mkWorkDir ok.now) imgs 0 hfetch,
            downloadToFile, hfa, run, h1, h2]
        refine ⟨_, _, htr, hu, ?_, hx, ?_⟩
        · rw [htr]
          simp [fetchUrls, List.filterMap_append, fetchUrls_dlTrace_raw]
        · intro e hee
          simp at hee
          rcases hee with rfl | rfl <;> rfl
      · by_cases hcfg : (jsFalsyOptStr env.supabaseUrl || jsFalsyOptStr env.serviceKey) = true
        · have htr : (handler "" env ok hdr body).1
              = (.mkdirE (mkWorkDir ok.now)
                  :: (dlTrace (mkWorkDir ok.now) 0 imgs
                      ++ [.fetchE audio, .writeFileE (audioPathOf ok.now),
                          .writeConcatE (concatPathOf ok.now)
                            (concatEntries (dlAssets (mkWorkDir ok.now) 0 imgs))]))
                ++ [.execE (cmd1Of ok.now (body.width.getD 1920) (body.height.getD 1080)),
                    .execE (cmd2Of ok.now)] := by
            simp [handler, imagesDefaulted, hbody, he, haudf2, haudio, pipeline,
              downloadImagesFrom_ok ok (mkWorkDir ok.now) imgs 0 hfetch,
              downloadToFile, hfa, run, h1, h2, hcfg]
          refine ⟨_, _, htr, hu, ?_, hx, ?_⟩
          · rw [htr]
            simp [fetchUrls, List.filterMap_append, fetchUrls_dlTrace_raw]
          · intro e hee
            simp at hee
            rcases hee with rfl | rfl <;> rfl
        · have hcfg' : (jsFalsyOptStr env.supabaseUrl || jsFalsyOptStr env.serviceKey) = false :=
            by simpa using hcfg
          have htr : (handler "" env ok hdr body).1
              = (.mkdirE (mkWorkDir ok.now)
                  :: (dlTrace (mkWorkDir ok.now) 0 imgs
                      ++ [.fetchE audio, .writeFileE (audioPathOf ok.now),
                          .writeConcatE (concatPathOf ok.now)
                            (concatEntries (dlAssets (mkWorkDir ok.now) 0 imgs))]))
                ++ [.execE (cmd1Of ok.now (body.width.getD 1920) (body.height.getD 1080)),
                    .execE (cmd2Of ok.now),
                    .uploadE (uploadUrl (env.supabaseUrl.getD "") (bucketOf env)
                        (body.outputPath.getD "stories/output.mp4"))
                      (uploadHeaders (env.serviceKey.getD ""))] := by
            by_cases hup : ok.uploadOk <;>
              simp [handler, imagesDefaulted, hbody, he, haudf2, haudio, pipeline,
                downloadImagesFrom_ok ok (mkWorkDir ok.now) imgs 0 hfetch,
                downloadToFile, hfa, run, h1, h2, hcfg', hup]
          refine ⟨_, _, htr, hu, ?_, hx, ?_⟩
          · rw [htr]
            simp [fetchUrls, List.filterMap_append, fetchUrls_dlTrace_raw]
          · intro e hee
            simp at hee
            rcases hee with rfl | rfl | rfl <;> rfl
  · intro hfail
    by_cases hall : ∀ img ∈ imgs, ok.fetchOk img.url = true
    · have hfa : ok.fetchOk audio = false := by
        rcases hfail with ⟨img, hm, hf⟩ | hfa
        · rw [hall img hm] at hf; cases hf
        · exact hfa
      have htr : (handler "" env ok hdr body).1
          = .mkdirE (mkWorkDir ok.now)
            :: (dlTrace (mkWorkDir ok.now) 0 imgs ++ [.fetchE audio]) := by
        simp [handler, imagesDefaulted, hbody, he, haudf2, haudio, pipeline,
          downloadImagesFrom_ok ok (mkWorkDir ok.now) imgs 0 hall,
          downloadToFile, hfa]
      constructor
      · intro e hee
        rw [htr] at hee
        simp [List.mem_cons, List.mem_append] at hee
        rcases hee with rfl | hd | rfl
        · rfl
        · exact dlTrace_forall_not_exec _ _ _ _ hd
        · rfl
      · refine ⟨dlFailMsg audio (ok.fetchStatus audio), "", ?_⟩
        simp [handler, imagesDefaulted, hbody, he, haudf2, haudio, pipeline,
          downloadImagesFrom_ok ok (mkWorkDir ok.now) imgs 0 hall,
          downloadToFile, hfa]
    · have hex : ∃ img ∈ imgs, ok.fetchOk img.url = false := by
        push_neg at hall
        rcases hall with ⟨img, hm, hf⟩
        exact ⟨img, hm, by simpa using hf⟩
      rcases downloadImagesFrom_fail ok (mkWorkDir ok.now) imgs 0 hex with ⟨evs, err, heq⟩
      have hclean := downloadImagesFrom_trace_clean ok (mkWorkDir ok.now) imgs 0
      rw [heq] at hclean
      have hcl : ∀ e ∈ evs, e.isExec = false := by
        intro e hee
        have h1 := List.all_eq_true.mp hclean e hee
        have h2 := (Bool.and_eq_true _ _).mp h1
        simpa using h2.1
      have htr : (handler "" env ok hdr body).1 = .mkdirE (mkWorkDir ok.now) :: evs := by
        simp [handler, imagesDefaulted, hbody, he, haudf2, haudio, pipeline, heq]
      constructor
      · intro e hee
        rw [htr] at hee
        rcases List.mem_cons.mp hee with rfl | hd
        · rfl
        · exact hcl e hd
      · refine ⟨err.message, err.details.getD "", ?_⟩
        simp [handler, imagesDefaulted, hbody, he, haudf2, haudio, pipeline, heq]

/-- Witness for C7: one image, all fetches succeed. -/
theorem spec_c7_sequential_fetch_order_witness :
    ∃ pre post,
      (handler "" ⟨some "https://x.supabase.co", none, some "KEY"⟩
          ⟨42, fun _ => true, fun _ => 200, fun _ => .ok "", true, 200, "", []⟩
          none
          ⟨some (.arr [⟨"http://a/1.png", none⟩]), some "http://a/a.mp3",
           none, none, none, none⟩).1 = pre ++ post ∧
      fetchUrls pre = ["http://a/1.png"] ++ ["http://a/a.mp3"] ∧
      fetchUrls (handler "" ⟨some "https://x.supabase.co", none, some "KEY"⟩
          ⟨42, fun _ => true, fun _ => 200, fun _ => .ok "", true, 200, "", []⟩
          none
          ⟨some (.arr [⟨"http://a/1.png", none⟩]), some "http://a/a.mp3",
           none, none, none, none⟩).1 = ["http://a/1.png"] ++ ["http://a/a.mp3"] ∧
      (∀ e ∈ pre, e.isExec = false) ∧
      (∀ e ∈ post, e.isFetch = false) :=
  (spec_c7_sequential_fetch_order _ _ none _ [⟨"http://a/1.png", none⟩] "http://a/a.mp3"
    rfl (by simp) rfl (by decide)).1 (by simp) rfl

/-- C4 (refuting the claim): the workspace directory is derived solely
from `Date.now()` (server.js line 71), so two distinct requests
processed in the same millisecond are allocated the identical workspace
path `/tmp/work-<now>` — the allocated identifiers are not distinct. -/
theorem spec_c4_workdir_collision :
    mkWorkDir 777 = "/tmp/work-777" ∧
    (⟨some (.arr [⟨"http://a/1.png", none⟩]), some "http://a/a.mp3",
      none, none, none, none⟩ : ReqBody)
      ≠ ⟨some (.arr [⟨"http://b/2.png", none⟩]), some "http://b/b.mp3",
         none, none, none, none⟩ ∧
    (handler "" ⟨none, none, none⟩
        ⟨777, fun _ => true, fun _ => 200, fun _ => .ok "", true, 200, "", []⟩
        none
        ⟨some (.arr [⟨"http://a/1.png", none⟩]), some "http://a/a.mp3",
         none, none, none, none⟩).1.head? = some (.mkdirE "/tmp/work-777") ∧
    (handler "" ⟨none, none, none⟩
        ⟨777, fun _ => true, fun _ => 200, fun _ => .ok "", true, 200, "", []⟩
        none
        ⟨some (.arr [⟨"http://b/2.png", none⟩]), some "http://b/b.mp3",
         none, none, none, none⟩).1.head? = some (.mkdirE "/tmp/work-777") :=
  ⟨rfl, by decide, rfl, rfl⟩
